import Mathlib

/-!
Shallow embedding of a browser rhythm game (React + Web Audio) and proofs
about its judgment engine, audio sequencer, simulation loop and controller.

Sources embedded:
  * `types.ts`          : `GameState`, `Building`, `BuildingResult`.
  * `GameCanvas` file   : `handleInput` (judgment), the per-frame `render`
    gameplay block (movement, passive-miss flagging, retirement, spawning,
    depth sort before drawing).
  * `App.tsx`           : `startGame`, `handleScoreUpdate`, `handlePassiveMiss`.
  * `AudioEngine` file  : `start`, `stop`, `scheduler`, `nextNote`,
    `scheduleNote`, `isRunning`.

JS numbers are embedded as `ℚ` (exact real-number semantics for the decimal
literals of the source); JS `%` on nonnegative operands is `jsMod` below.
-/

namespace Neon

/-- `GameState` from `types.ts`. -/
inductive GameState
  | MENU
  | PLAYING
  | GAMEOVER
deriving DecidableEq, Repr

/-- `BuildingResult` from `types.ts`. -/
inductive BuildingResult
  | PERFECT
  | GOOD
  | MISS
  | NONE
deriving DecidableEq, Repr

/-- `Building` from `types.ts`.  The TS optional `hasMissed?: boolean` is a
`Bool` here (absent = `false`, the meaning JS gives `undefined` in the
`!b.hasMissed` test); `quality: 'PERFECT' | 'GOOD' | 'MISS' | null` is
`Option BuildingResult` (the extra `NONE` constructor exists in the TS enum
`BuildingResult` but not in the `quality` union; it is representable here and
claim C10 shows `MISS` — and hence also `NONE` — is never stored). -/
structure Building where
  id : ℚ
  btype : String
  height : ℚ
  color : String
  z : ℚ
  x : ℚ
  isLocked : Bool
  quality : Option BuildingResult
  hasMissed : Bool
deriving DecidableEq, Repr

/-- `BUILD_LINE_Z` constant of `GameCanvas`. -/
def BUILD_LINE_Z : ℚ := 200

/-- Integer truncation toward zero, the rounding JS `%` is based on. -/
def ratTrunc (q : ℚ) : ℤ := if 0 ≤ q then ⌊q⌋ else ⌈q⌉

/-- JS remainder `a % b` (sign of the dividend): `a - b * trunc (a / b)`. -/
def jsMod (a b : ℚ) : ℚ := a - b * (ratTrunc (a / b) : ℚ)

/-- The phase error computed inside `handleInput`:
`timeSinceLastBeat = currentTime % beatDuration`,
`progress = timeSinceLastBeat / beatDuration`,
`beatErr = Math.min(progress, 1 - progress)`. -/
def beatErr (currentTime beatDuration : ℚ) : ℚ :=
  min (jsMod currentTime beatDuration / beatDuration)
    (1 - jsMod currentTime beatDuration / beatDuration)

/-- The classification ladder of `handleInput` (result, points):
`beatErr < 0.08` ⇒ PERFECT/1000, `else beatErr < 0.22` ⇒ GOOD/500,
otherwise MISS/0. -/
def judge (currentTime beatDuration : ℚ) : BuildingResult × ℤ :=
  if beatErr currentTime beatDuration < 8 / 100 then (.PERFECT, 1000)
  else if beatErr currentTime beatDuration < 22 / 100 then (.GOOD, 500)
  else (.MISS, 0)

/-- Target selection of `handleInput`:
`buildings.filter(b => !b.isLocked).sort((a,b) => |a.z-L| - |b.z-L|)[0]`.
JS `sort` is stable, so `[0]` is the first element (in array order) attaining
the minimal distance to the build line; the fold below keeps exactly that
element. -/
def selectTarget (bs : List Building) : Option Building :=
  (bs.filter (fun b => !b.isLocked)).foldl
    (fun acc b =>
      match acc with
      | none => some b
      | some a => if |b.z - BUILD_LINE_Z| < |a.z - BUILD_LINE_Z| then some b else some a)
    none

/-- The transient feedback token (`feedbackRef`): its `text` and `color`
(the `alpha`/`y` fields start at the fixed values `1.0`/`0`). -/
structure Feedback where
  text : String
  color : String
deriving DecidableEq, Repr

/-- String value of a `BuildingResult` (TS string enum). -/
def resultText : BuildingResult → String
  | .PERFECT => "PERFECT"
  | .GOOD => "GOOD"
  | .MISS => "MISS"
  | .NONE => "NONE"

/-- The in-place mutation of the chosen target on a PERFECT/GOOD hit:
`target.isLocked = true; target.quality = result;
target.height = result === PERFECT ? 1.0 : 0.6;
target.color  = result === PERFECT ? COLORS.buildingLocked : '#fde047'`. -/
def lockTarget (result : BuildingResult) (b : Building) : Building :=
  { b with
    isLocked := true
    quality := some result
    height := if result = .PERFECT then 1 else 6 / 10
    color := if result = .PERFECT then "#c026d3" else "#fde047" }

/-- Replace the first occurrence of `old` in the list by `nw`; this is how an
in-place mutation of the (reference-identical) selected array element is
rendered on immutable lists.  `selectTarget` returns the first element of the
array attaining its minimum, so the first structural occurrence is the
mutated one. -/
def replaceFirst (bs : List Building) (old nw : Building) : List Building :=
  match bs with
  | [] => []
  | b :: rest => if b = old then nw :: rest else b :: replaceFirst rest old nw

/-- `handleInput` of `GameCanvas`: guard on the PLAYING state, select the
nearest unlocked target, classify the input phase, then either lock/recolor
the target and report `(points, result)`, or leave everything untouched and
report `(0, MISS)`.  Returns (new target list, feedback token written to
`feedbackRef`, the `onScoreUpdate` report). -/
def handleInput (gameState : GameState) (currentTime beatDuration : ℚ)
    (bs : List Building) :
    List Building × Option Feedback × Option (ℤ × BuildingResult) :=
  if gameState ≠ GameState.PLAYING then (bs, none, none)
  else
    match selectTarget bs with
    | none => (bs, none, none)
    | some target =>
      if (judge currentTime beatDuration).1 ≠ .MISS then
        (replaceFirst bs target (lockTarget (judge currentTime beatDuration).1 target),
         some { text := resultText (judge currentTime beatDuration).1
                color := if (judge currentTime beatDuration).1 = .PERFECT
                  then "#22d3ee" else "#fde047" },
         some ((judge currentTime beatDuration).2, (judge currentTime beatDuration).1))
      else
        (bs, some { text := "MISS", color := "#ef4444" }, some (0, .MISS))

/-- One target's share of the per-frame gameplay block of `render`:
`b.z -= speed * deltaTime;` followed by
`if (!b.isLocked && !b.hasMissed && b.z < BUILD_LINE_Z - 60) {
   b.hasMissed = true; onPassiveMiss(); }`.
The boolean result records whether `onPassiveMiss` was emitted this frame. -/
def moveTarget (speed dt : ℚ) (b : Building) : Building × Bool :=
  let moved : Building := { b with z := b.z - speed * dt }
  if ¬moved.isLocked ∧ ¬moved.hasMissed ∧ moved.z < BUILD_LINE_Z - 60 then
    ({ moved with hasMissed := true }, true)
  else (moved, false)

/-- The `buildingsRef.current.forEach` movement/flagging pass. -/
def moveAndFlag (speed dt : ℚ) (bs : List Building) : List Building :=
  bs.map (fun b => (moveTarget speed dt b).1)

/-- Retirement: `buildingsRef.current.filter(b => b.z > -200)`. -/
def keepAlive (bs : List Building) : List Building :=
  bs.filter (fun b => decide ((-200 : ℚ) < b.z))

/-- `lastZ` of the spawn block:
`buildings.length ? buildings[buildings.length-1].z : 1500`. -/
def lastZ (bs : List Building) : ℚ :=
  match bs.getLast? with
  | some b => b.z
  | none => 1500

/-- The object pushed by the spawn block.  `lane ∈ Fin 5` stands for the
uniform draw `Math.floor(Math.random()*5)`, giving
`x = (lane - 2) * 250`; `id` stands for the `Math.random()` identifier. -/
def newBuilding (id : ℚ) (lastz : ℚ) (lane : Fin 5) : Building :=
  { id := id
    btype := "skyscraper"
    height := 2 / 10
    color := "#06b6d4"
    z := lastz + 400
    x := ((lane : ℚ) - 2) * 250
    isLocked := false
    quality := none
    hasMissed := false }

/-- The spawn block: `if (buildings.length < 8) push(newBuilding)`. -/
def spawnPhase (id : ℚ) (lane : Fin 5) (bs : List Building) : List Building :=
  if bs.length < 8 then bs ++ [newBuilding id (lastZ bs) lane] else bs

/-- The draw-ordering pass `buildings.sort((a, b) => b.z - a.z)`: an in-place
stable sort by descending depth.  A stable sort for a total preorder has a
unique result, so the stable `insertionSort` below produces exactly the array
JS leaves behind. -/
def sortByZDesc (bs : List Building) : List Building :=
  bs.insertionSort (fun a b => b.z ≤ a.z)

/-- The pool the spawn check inspects: the frame's targets after movement,
flagging and retirement. -/
def framePool (speed dt : ℚ) (bs : List Building) : List Building :=
  keepAlive (moveAndFlag speed dt bs)

/-- One `render` frame of the gameplay state (the PLAYING branch): move and
flag, retire, spawn, then the depth sort performed for drawing (it mutates
`buildingsRef.current` in place and is what the next frame starts from). -/
def renderStep (speed dt id : ℚ) (lane : Fin 5) (bs : List Building) :
    List Building :=
  sortByZDesc (spawnPhase id lane (framePool speed dt bs))

/-- Events a single target can experience over its lifetime: a simulation
frame (with that frame's `speed`/`deltaTime`), or being locked by a
successful judgment. -/
inductive TEvent
  | frame (speed dt : ℚ)
  | lockEv (result : BuildingResult)
deriving DecidableEq, Repr

/-- One event applied to one target, with the passive-miss emission flag. -/
def tStep (e : TEvent) (b : Building) : Building × Bool :=
  match e with
  | .frame speed dt => moveTarget speed dt b
  | .lockEv result => (lockTarget result b, false)

/-- Run a lifetime of events over one target, counting `onPassiveMiss`
emissions attributable to it. -/
def runT : List TEvent → Building → Building × ℕ
  | [], b => (b, 0)
  | e :: evs, b =>
    ((runT evs (tStep e b).1).1,
      (if (tStep e b).2 then 1 else 0) + (runT evs (tStep e b).1).2)

/-- Whole-game events touching the target list: a judged input during
PLAYING, or a PLAYING-state render frame. -/
inductive SysEvent
  | input (currentTime beatDuration : ℚ)
  | frame (speed dt id : ℚ) (lane : Fin 5)
deriving DecidableEq, Repr

/-- Effect of a system event on the target list. -/
def sysStep (e : SysEvent) (bs : List Building) : List Building :=
  match e with
  | .input t spb => (handleInput .PLAYING t spb bs).1
  | .frame speed dt id lane => renderStep speed dt id lane bs

/-- Target list reached after a sequence of events from the initial empty
`buildingsRef.current = []`. -/
def runSys (evs : List SysEvent) : List Building :=
  evs.foldl (fun bs e => sysStep e bs) []

/-- State of the `AudioContext` (`suspended`/`running` are the two states
this code ever observes). -/
inductive CtxState
  | suspended
  | running
deriving DecidableEq, Repr

/-- `AudioEngine` state.  `ctx` records whether the `AudioContext` exists;
`timerID` is the field of the same name (the id of the most recently armed
`setTimeout`); `pendingTimers` is the set of `setTimeout` callbacks currently
pending in the host (armed and neither fired nor cleared) — the code does not
track this set, the host does; `freshTimer` generates host timer ids.
`stepsScheduled` and `beatEvents` are history variables: the `scheduleNote`
step numbers, and the `beatCallback` step numbers, observed since the most
recent `start()` (they record the externally visible event traces and are
read by no operation). -/
structure EngineState where
  ctx : Bool
  ctxState : CtxState
  currentTime : ℚ
  nextNoteTime : ℚ
  current16thNote : ℕ
  timerID : Option ℕ
  pendingTimers : List ℕ
  freshTimer : ℕ
  stepsScheduled : List ℕ
  beatEvents : List ℕ
deriving DecidableEq, Repr

/-- `bpm = 115`. -/
def bpmConst : ℚ := 115

/-- `scheduleAheadTime = 0.1` seconds. -/
def scheduleAheadTime : ℚ := 1 / 10

/-- The per-iteration advance of `nextNote`:
`0.25 * (60.0 / bpm)` (a sixteenth note). -/
def sixteenthStep : ℚ := (25 / 100) * (60 / bpmConst)

/-- `scheduleNote(beatNumber, time)` restricted to its game-visible effects:
it is called with `beatNumber = current16thNote`, records the scheduled step,
and invokes `beatCallback` exactly when `beatNumber % 4 === 0` (the audio
voices it also starts — kick, snare, hi-hat, bass, arp — are pure functions
of the step index and are not modelled). -/
def scheduleNote (s : EngineState) : EngineState :=
  { s with
    stepsScheduled := s.stepsScheduled ++ [s.current16thNote]
    beatEvents :=
      if s.current16thNote % 4 = 0 then s.beatEvents ++ [s.current16thNote]
      else s.beatEvents }

/-- `nextNote()`: advance `nextNoteTime` by a sixteenth and the step counter
by one, wrapping `16 → 0`. -/
def nextNote (s : EngineState) : EngineState :=
  { s with
    nextNoteTime := s.nextNoteTime + sixteenthStep
    current16thNote :=
      if s.current16thNote + 1 = 16 then 0 else s.current16thNote + 1 }

/-- The scheduler's catch-up loop
`while (nextNoteTime < currentTime + scheduleAheadTime) { scheduleNote; nextNote }`,
written with explicit fuel; `loopFuel` below supplies enough fuel for the
loop to run to completion, so `runLoop (loopFuel s) s` is the loop's exit
state. -/
def runLoop : ℕ → EngineState → EngineState
  | 0, s => s
  | n + 1, s =>
    if s.nextNoteTime < s.currentTime + scheduleAheadTime then
      runLoop n (nextNote (scheduleNote s))
    else s

/-- An upper bound on the iterations of the catch-up loop: each iteration
raises `nextNoteTime` by `sixteenthStep > 0`. -/
def loopFuel (s : EngineState) : ℕ :=
  (⌈(s.currentTime + scheduleAheadTime - s.nextNoteTime) / sixteenthStep⌉).toNat

/-- The re-arming of the look-ahead timer at the end of `scheduler`:
`timerID = window.setTimeout(() => scheduler(), lookahead)`.  The previous
value of `timerID` is overwritten without being cleared, so a timeout armed
by an older chain stays pending in the host. -/
def armTimer (s : EngineState) : EngineState :=
  { s with
    pendingTimers := s.pendingTimers ++ [s.freshTimer]
    timerID := some s.freshTimer
    freshTimer := s.freshTimer + 1 }

/-- `scheduler()`: `if (!ctx) return;` then the catch-up loop, then re-arm. -/
def scheduler (s : EngineState) : EngineState :=
  if s.ctx = false then s else armTimer (runLoop (loopFuel s) s)

/-- Host-side facts `start()` depends on: whether an `AudioContext` can be
constructed at all, and whether the autoplay policy lets `resume()` settle
successfully. -/
structure AudioEnv where
  canCreate : Bool
  resumeAllowed : Bool
deriving DecidableEq, Repr

/-- How an `async start()` call can end: returning normally, throwing (the
`AudioContext` constructor failed), or never settling (the `resume()`
promise stays pending under the autoplay policy, so no code after the
`await` runs).  Each constructor carries the engine state at that point. -/
inductive StartResult
  | ok (s : EngineState)
  | threw (s : EngineState)
  | blocked (s : EngineState)
deriving DecidableEq, Repr

/-- `init()`: `if (this.ctx) return;` else construct the `AudioContext`
(fresh contexts that need a later `resume()` begin `suspended`). -/
def initEngine (s : EngineState) : EngineState :=
  if s.ctx then s else { s with ctx := true, ctxState := .suspended }

/-- The effect of a successful `await ctx.resume()` (a no-op when the
context is already running). -/
def resumeStep (s : EngineState) : EngineState :=
  if s.ctxState = .suspended then { s with ctxState := .running } else s

/-- The engine state right before the final `scheduler()` call of a
successful `start()`: context created and resumed, step counter reset,
`nextNoteTime = currentTime + 0.1`, run traces restarted. -/
def startedEngine (s : EngineState) : EngineState :=
  { resumeStep (initEngine s) with
    current16thNote := 0
    nextNoteTime := (resumeStep (initEngine s)).currentTime + scheduleAheadTime
    stepsScheduled := []
    beatEvents := [] }

/-- `async start()`:
`if (!ctx) init(); if (ctx.state === 'suspended') await ctx.resume();
current16thNote = 0; nextNoteTime = ctx.currentTime + 0.1; scheduler();`
The history variables are cleared so the traces cover the run begun by this
`start` (a modelling choice, not a code effect). -/
def start (env : AudioEnv) (s : EngineState) : StartResult :=
  if s.ctx = false ∧ env.canCreate = false then .threw s
  else if (initEngine s).ctxState = .suspended ∧ env.resumeAllowed = false then
    .blocked (initEngine s)
  else .ok (scheduler (startedEngine s))

/-- The engine state a `start()` call leaves behind, whichever way it ends. -/
def startState (env : AudioEnv) (s : EngineState) : EngineState :=
  match start env s with
  | .ok e => e
  | .threw e => e
  | .blocked e => e

/-- `stop()`: clear the tracked timer (only the most recently armed one) and
suspend the context. -/
def stop (s : EngineState) : EngineState :=
  let s1 :=
    match s.timerID with
    | some t => { s with pendingTimers := s.pendingTimers.erase t, timerID := none }
    | none => s
  if s1.ctx then { s1 with ctxState := .suspended } else s1

/-- `isRunning()`: `ctx?.state === 'running'`. -/
def isRunning (s : EngineState) : Bool :=
  s.ctx && decide (s.ctxState = CtxState.running)

/-- One look-ahead timer callback firing `dt` seconds of audio-clock time
later: the pending timeout is consumed and `scheduler()` runs again (the
audio clock only advances while the context is running). -/
def tick (dt : ℚ) (s : EngineState) : EngineState :=
  match s.timerID with
  | none => s
  | some t =>
    scheduler
      { s with
        currentTime := if isRunning s then s.currentTime + dt else s.currentTime
        pendingTimers := s.pendingTimers.erase t }

/-- A run of timer callbacks with the given inter-tick clock advances. -/
def runTicks (dts : List ℚ) (s : EngineState) : EngineState :=
  dts.foldl (fun s dt => tick dt s) s

/-- The `App` component state: the screen state and the score/combo/health
counters, plus the owned `AudioEngine`. -/
structure AppState where
  gameState : GameState
  score : ℤ
  combo : ℤ
  health : ℤ
  engine : EngineState
deriving DecidableEq, Repr

/-- The multiplier expression of `handleScoreUpdate`:
`1 + Math.floor(combo / 5) * 0.5`. -/
def multiplier (combo : ℤ) : ℚ :=
  1 + (⌊(combo : ℚ) / 5⌋ : ℚ) * (5 / 10)

/-- `handleScoreUpdate(points, result)` of `App.tsx`: on MISS reset the combo
and take 15 health (floored at 0); otherwise add
`Math.floor(points * multiplier)` to the score, bump the combo, and on
PERFECT add 5 health (capped at 100). -/
def handleScoreUpdate (points : ℤ) (result : BuildingResult) (s : AppState) :
    AppState :=
  if result = .MISS then
    { s with combo := 0, health := max 0 (s.health - 15) }
  else
    { s with
      score := s.score + ⌊(points : ℚ) * multiplier s.combo⌋
      combo := s.combo + 1
      health := if result = .PERFECT then min 100 (s.health + 5) else s.health }

/-- `handlePassiveMiss()` of `App.tsx`. -/
def handlePassiveMiss (s : AppState) : AppState :=
  { s with combo := 0, health := max 0 (s.health - 10) }

/-- `startGame` of `App.tsx`: reset score/combo/health, `await engine.start()`,
and only if that returns normally run the following
`setGameState(GameState.PLAYING)`.  When `start` throws the async exception
escapes `startGame` before the transition; when `start` never settles the
transition is likewise never reached. -/
def startGame (env : AudioEnv) (app : AppState) : AppState :=
  let app1 := { app with score := 0, combo := 0, health := 100 }
  match start env app1.engine with
  | .ok e => { app1 with engine := e, gameState := .PLAYING }
  | .threw e => { app1 with engine := e }
  | .blocked e => { app1 with engine := e }

/-- The engine before any `start`: no context yet. -/
def initialEngine : EngineState :=
  { ctx := false
    ctxState := .suspended
    currentTime := 0
    nextNoteTime := 0
    current16thNote := 0
    timerID := none
    pendingTimers := []
    freshTimer := 0
    stepsScheduled := []
    beatEvents := [] }

/-- The initial `App` state: MENU screen, `health = 100`. -/
def initialApp : AppState :=
  { gameState := .MENU, score := 0, combo := 0, health := 100, engine := initialEngine }

/-- Concrete unlocked target used to instantiate hypotheses on concrete
inputs. -/
def wBuilding : Building :=
  { id := 1
    btype := "skyscraper"
    height := 2 / 10
    color := "#06b6d4"
    z := 300
    x := 0
    isLocked := false
    quality := none
    hasMissed := false }

/-- Trace invariant of one continuous run: after some number `m` of scheduled
sixteenth steps, the step counter reads `m % 16`, the scheduled-step trace is
the consecutive sequence `0,1,…,m-1` reduced mod 16 (one step at a time,
cycling 0..15, never skipping or repeating), and the beat-callback trace is
exactly its sub-sequence of steps divisible by 4. -/
def traceInv (s : EngineState) : Prop :=
  ∃ m : ℕ,
    s.current16thNote = m % 16
    ∧ s.stepsScheduled = (List.range m).map (fun i => i % 16)
    ∧ s.beatEvents
        = ((List.range m).map (fun i => i % 16)).filter (fun st => decide (st % 4 = 0))

/-- Concrete engine state of a running sequencer with one pending look-ahead
timer: the situation in which a re-entrant `start()` would be issued. -/
def wEngine : EngineState :=
  { ctx := true
    ctxState := .running
    currentTime := 5
    nextNoteTime := 5
    current16thNote := 3
    timerID := some 0
    pendingTimers := [0]
    freshTimer := 1
    stepsScheduled := []
    beatEvents := [] }

/-- Frame 1 of the concrete spawn scenario: from an empty pool, no movement. -/
def cexFrame1 : List Building := renderStep 500 0 1 ⟨2, by norm_num⟩ []

/-- Frame 2: the pool moves 50 depth units, then a second target spawns. -/
def cexFrame2 : List Building := renderStep 500 (1 / 10) 2 ⟨2, by norm_num⟩ cexFrame1

/-- Frame 3: the pool moves 600 depth units, then a third target spawns. -/
def cexFrame3 : List Building := renderStep 500 (6 / 5) 3 ⟨2, by norm_num⟩ cexFrame2

/-- Concrete mid-game controller state used to instantiate hypotheses. -/
def wApp : AppState :=
  { gameState := .PLAYING, score := 0, combo := 7, health := 100, engine := initialEngine }

/-- Discrete events mutating the score/combo/health counters. -/
inductive GameEvent
  | judged (points : ℤ) (result : BuildingResult)
  | passiveMiss
  | restart (env : AudioEnv)
deriving DecidableEq, Repr

/-- Effect of a counter event, as wired in `App.tsx`. -/
def applyEvent (e : GameEvent) (s : AppState) : AppState :=
  match e with
  | .judged p r => handleScoreUpdate p r s
  | .passiveMiss => handlePassiveMiss s
  | .restart env => startGame env s

/-- `App` state after a sequence of counter events from the initial state. -/
def applyEvents (evs : List GameEvent) : AppState :=
  evs.foldl (fun s e => applyEvent e s) initialApp

theorem judge_cases (t spb : ℚ) :
    judge t spb = (.PERFECT, 1000) ∨ judge t spb = (.GOOD, 500) ∨
      judge t spb = (.MISS, 0) := by
  unfold judge
  split_ifs <;> simp

theorem judge_fst_miss {t spb : ℚ} (h : (judge t spb).1 = .MISS) :
    judge t spb = (.MISS, 0) := by
  rcases judge_cases t spb with h1 | h1 | h1 <;> rw [h1] at h ⊢ <;> simp_all

theorem judge_perfect_iff (t spb : ℚ) :
    judge t spb = (.PERFECT, 1000) ↔ beatErr t spb < 8 / 100 := by
  unfold judge
  split_ifs with h1 h2 <;> simp_all

theorem judge_good_iff (t spb : ℚ) :
    judge t spb = (.GOOD, 500) ↔ 8 / 100 ≤ beatErr t spb ∧ beatErr t spb < 22 / 100 := by
  unfold judge
  split_ifs with h1 h2
  · constructor
    · intro h
      simp at h
    · intro h
      linarith [h.1]
  · constructor
    · intro _
      exact ⟨not_lt.mp h1, h2⟩
    · intro _
      rfl
  · constructor
    · intro h
      simp at h
    · intro h
      exact absurd h.2 h2

theorem judge_miss_iff (t spb : ℚ) :
    judge t spb = (.MISS, 0) ↔ 22 / 100 ≤ beatErr t spb := by
  unfold judge
  split_ifs with h1 h2 <;> simp_all <;> linarith

theorem handleInput_report {bs : List Building} {tgt : Building} (t spb : ℚ)
    (htgt : selectTarget bs = some tgt) :
    (handleInput .PLAYING t spb bs).2.2 = some ((judge t spb).2, (judge t spb).1) := by
  rcases judge_cases t spb with hj | hj | hj <;>
    (unfold handleInput; rw [if_neg (by simp), htgt, hj]; simp)

/-- Claim C1: for an input judged while a target is present, the reported
pair is `(points, result)` of the classification ladder, and the ladder is
exactly: PERFECT/1000 iff `beatErr < 0.08`, GOOD/500 iff
`0.08 ≤ beatErr < 0.22`, MISS/0 iff `beatErr ≥ 0.22` (half-open intervals
with exact boundaries). -/
theorem C1_classification (t spb : ℚ) (bs : List Building) (tgt : Building)
    (htgt : selectTarget bs = some tgt) :
    (handleInput .PLAYING t spb bs).2.2 = some ((judge t spb).2, (judge t spb).1)
    ∧ (judge t spb = (.PERFECT, 1000) ↔ beatErr t spb < 8 / 100)
    ∧ (judge t spb = (.GOOD, 500) ↔ 8 / 100 ≤ beatErr t spb ∧ beatErr t spb < 22 / 100)
    ∧ (judge t spb = (.MISS, 0) ↔ 22 / 100 ≤ beatErr t spb) :=
  ⟨handleInput_report t spb htgt, judge_perfect_iff t spb, judge_good_iff t spb,
    judge_miss_iff t spb⟩

/-- Witness for C1 at the concrete input `t = 0`, `spb = 1`, one unlocked
target. -/
theorem C1_classification_witness :
    selectTarget [wBuilding] = some wBuilding
    ∧ ((handleInput .PLAYING 0 1 [wBuilding]).2.2 = some ((judge 0 1).2, (judge 0 1).1)
       ∧ (judge 0 1 = (.PERFECT, 1000) ↔ beatErr 0 1 < 8 / 100)
       ∧ (judge 0 1 = (.GOOD, 500) ↔ 8 / 100 ≤ beatErr 0 1 ∧ beatErr 0 1 < 22 / 100)
       ∧ (judge 0 1 = (.MISS, 0) ↔ 22 / 100 ≤ beatErr 0 1)) :=
  ⟨by simp [selectTarget, wBuilding],
    C1_classification 0 1 [wBuilding] wBuilding (by simp [selectTarget, wBuilding])⟩

theorem jsMod_add_self {a b : ℚ} (ha : 0 ≤ a) (hb : 0 < b) :
    jsMod (a + b) b = jsMod a b := by
  have hb' : b ≠ 0 := hb.ne'
  have hdiv : (a + b) / b = a / b + 1 := by
    field_simp
  have hnn : 0 ≤ a / b := div_nonneg ha hb.le
  have hnn' : 0 ≤ a / b + 1 := by linarith
  unfold jsMod ratTrunc
  rw [hdiv, if_pos hnn', if_pos hnn, Int.floor_add_one]
  push_cast
  ring

theorem jsMod_nat_mul (k : ℕ) {b : ℚ} (hb : 0 < b) :
    jsMod ((k : ℚ) * b) b = 0 := by
  have hb' : b ≠ 0 := hb.ne'
  have hdiv : ((k : ℚ) * b) / b = (k : ℚ) := by
    field_simp
  have hnn : (0 : ℚ) ≤ (k : ℚ) := by positivity
  unfold jsMod ratTrunc
  rw [hdiv, if_pos hnn, Int.floor_natCast]
  push_cast
  ring

theorem beatErr_of_jsMod_zero {t spb : ℚ} (h : jsMod t spb = 0) :
    beatErr t spb = 0 := by
  unfold beatErr
  rw [h]
  norm_num

/-- Claim C7: with `spb = 60/bpm` for any `bpm > 0`, the phase error is
`spb`-periodic on nonnegative audio times, and an input exactly at a beat
boundary `k * spb` has error `0` and is judged PERFECT with 1000 points. -/
theorem C7_periodicity (bpm t : ℚ) (k : ℕ) (hbpm : 0 < bpm) (ht : 0 ≤ t) :
    beatErr (t + 60 / bpm) (60 / bpm) = beatErr t (60 / bpm)
    ∧ beatErr ((k : ℚ) * (60 / bpm)) (60 / bpm) = 0
    ∧ judge ((k : ℚ) * (60 / bpm)) (60 / bpm) = (.PERFECT, 1000) := by
  have hspb : (0 : ℚ) < 60 / bpm := by positivity
  have hzero : beatErr ((k : ℚ) * (60 / bpm)) (60 / bpm) = 0 :=
    beatErr_of_jsMod_zero (jsMod_nat_mul k hspb)
  refine ⟨?_, hzero, ?_⟩
  · unfold beatErr
    rw [jsMod_add_self ht hspb]
  · rw [judge_perfect_iff, hzero]
    norm_num

/-- Witness for C7 at `bpm = 115`, `t = 3`, `k = 2`. -/
theorem C7_periodicity_witness :
    (0 : ℚ) < 115 ∧ (0 : ℚ) ≤ 3
    ∧ (beatErr (3 + 60 / 115) (60 / 115) = beatErr 3 (60 / 115)
       ∧ beatErr (((2 : ℕ) : ℚ) * (60 / 115)) (60 / 115) = 0
       ∧ judge (((2 : ℕ) : ℚ) * (60 / 115)) (60 / 115) = (.PERFECT, 1000)) :=
  ⟨by norm_num, by norm_num, C7_periodicity 115 3 2 (by norm_num) (by norm_num)⟩

theorem startGame_health (env : AudioEnv) (s : AppState) :
    (startGame env s).health = 100 := by
  unfold startGame
  cases h : start env ({ s with score := 0, combo := 0, health := 100 } : AppState).engine <;>
    simp [h]

theorem health_event_bounds (e : GameEvent) (s : AppState) (h0 : 0 ≤ s.health)
    (h1 : s.health ≤ 100) :
    0 ≤ (applyEvent e s).health ∧ (applyEvent e s).health ≤ 100 := by
  cases e with
  | judged p r =>
    simp only [applyEvent, handleScoreUpdate]
    split_ifs <;> simp <;> omega
  | passiveMiss =>
    simp only [applyEvent, handlePassiveMiss]
    constructor <;> simp <;> omega
  | restart env =>
    rw [applyEvent, startGame_health]
    omega

theorem health_bounds_foldl (evs : List GameEvent) (s : AppState) (h0 : 0 ≤ s.health)
    (h1 : s.health ≤ 100) :
    0 ≤ (evs.foldl (fun s e => applyEvent e s) s).health
    ∧ (evs.foldl (fun s e => applyEvent e s) s).health ≤ 100 := by
  induction evs generalizing s with
  | nil => exact ⟨h0, h1⟩
  | cons e evs ih =>
    rcases health_event_bounds e s h0 h1 with ⟨a, b⟩
    exact ih _ a b

/-- Claim C5: from the initial `health = 100`, any sequence of judged-input,
passive-miss and restart events keeps health inside `[0, 100]`; the per-event
steps are exactly: active MISS takes 15 (clamped at 0), passive miss takes 10
(clamped at 0), PERFECT adds 5 (clamped at 100), and GOOD leaves health
unchanged. -/
theorem C5_health_invariant :
    (∀ evs : List GameEvent,
       0 ≤ (applyEvents evs).health ∧ (applyEvents evs).health ≤ 100)
    ∧ (∀ (s : AppState) (p : ℤ),
       (handleScoreUpdate p .MISS s).health = max 0 (s.health - 15))
    ∧ (∀ s : AppState, (handlePassiveMiss s).health = max 0 (s.health - 10))
    ∧ (∀ (s : AppState) (p : ℤ),
       (handleScoreUpdate p .PERFECT s).health = min 100 (s.health + 5))
    ∧ (∀ (s : AppState) (p : ℤ), (handleScoreUpdate p .GOOD s).health = s.health) := by
  refine ⟨fun evs => health_bounds_foldl evs initialApp (by norm_num [initialApp])
    (by norm_num [initialApp]), ?_, ?_, ?_, ?_⟩
  · intro s p
    simp [handleScoreUpdate]
  · intro s
    simp [handlePassiveMiss]
  · intro s p
    simp [handleScoreUpdate]
  · intro s p
    simp [handleScoreUpdate]

theorem floor_div_five_eq_zero {c : ℤ} (h1 : 0 ≤ c) (h2 : c ≤ 4) :
    ⌊(c : ℚ) / 5⌋ = 0 := by
  rw [Int.floor_eq_iff]
  have ha : (0 : ℚ) ≤ (c : ℚ) := by exact_mod_cast h1
  have hb : (c : ℚ) ≤ 4 := by exact_mod_cast h2
  constructor
  · push_cast
    positivity
  · push_cast
    rw [div_lt_iff (by norm_num)]
    linarith

theorem floor_div_five_eq_one {c : ℤ} (h1 : 5 ≤ c) (h2 : c ≤ 9) :
    ⌊(c : ℚ) / 5⌋ = 1 := by
  rw [Int.floor_eq_iff]
  have ha : (5 : ℚ) ≤ (c : ℚ) := by exact_mod_cast h1
  have hb : (c : ℚ) ≤ 9 := by exact_mod_cast h2
  constructor
  · push_cast
    rw [le_div_iff (by norm_num)]
    linarith
  · push_cast
    rw [div_lt_iff (by norm_num)]
    linarith

theorem floor_div_five_eq_two {c : ℤ} (h1 : 10 ≤ c) (h2 : c ≤ 14) :
    ⌊(c : ℚ) / 5⌋ = 2 := by
  rw [Int.floor_eq_iff]
  have ha : (10 : ℚ) ≤ (c : ℚ) := by exact_mod_cast h1
  have hb : (c : ℚ) ≤ 14 := by exact_mod_cast h2
  constructor
  · push_cast
    rw [le_div_iff (by norm_num)]
    linarith
  · push_cast
    rw [div_lt_iff (by norm_num)]
    linarith

/-- Claim C6: a judged PERFECT or GOOD with base points `p` and current
combo `c` adds `⌊p * (1 + ⌊c/5⌋ * 0.5)⌋` to the score and bumps the combo;
the multiplier is 1 for combo 0–4, 1.5 for 5–9 and 2 for 10–14; any miss
(active or passive) resets the combo to 0 and adds no points. -/
theorem C6_score_multiplier (p : ℤ) (r : BuildingResult) (s : AppState)
    (hr : r = .PERFECT ∨ r = .GOOD) :
    (handleScoreUpdate p r s).score = s.score + ⌊(p : ℚ) * multiplier s.combo⌋
    ∧ (handleScoreUpdate p r s).combo = s.combo + 1
    ∧ (0 ≤ s.combo → s.combo ≤ 4 → multiplier s.combo = 1)
    ∧ (5 ≤ s.combo → s.combo ≤ 9 → multiplier s.combo = 3 / 2)
    ∧ (10 ≤ s.combo → s.combo ≤ 14 → multiplier s.combo = 2)
    ∧ (handleScoreUpdate p .MISS s).combo = 0
    ∧ (handleScoreUpdate p .MISS s).score = s.score
    ∧ (handlePassiveMiss s).combo = 0
    ∧ (handlePassiveMiss s).score = s.score := by
  have hne : r ≠ .MISS := by
    rcases hr with h | h <;> subst h <;> simp
  refine ⟨by simp [handleScoreUpdate, hne], by simp [handleScoreUpdate, hne],
    ?_, ?_, ?_, by simp [handleScoreUpdate], by simp [handleScoreUpdate],
    by simp [handlePassiveMiss], by simp [handlePassiveMiss]⟩
  · intro h1 h2
    rw [multiplier, floor_div_five_eq_zero h1 h2]
    norm_num
  · intro h1 h2
    rw [multiplier, floor_div_five_eq_one h1 h2]
    norm_num
  · intro h1 h2
    rw [multiplier, floor_div_five_eq_two h1 h2]
    norm_num

/-- Witness for C6: with combo 7 a GOOD worth 500 base points scores
`⌊500 × 1.5⌋ = 750` and the combo becomes 8. -/
theorem C6_score_multiplier_witness :
    ((BuildingResult.GOOD = BuildingResult.PERFECT ∨
        BuildingResult.GOOD = BuildingResult.GOOD)
     ∧ (handleScoreUpdate 500 .GOOD wApp).score = 750
     ∧ (handleScoreUpdate 500 .GOOD wApp).combo = 8) := by
  have h := C6_score_multiplier 500 .GOOD wApp (Or.inr rfl)
  refine ⟨Or.inr rfl, ?_, ?_⟩
  · rw [h.1]
    norm_num [wApp, multiplier]
  · rw [h.2.1]
    norm_num [wApp]

theorem tStep_isLocked_mono {e : TEvent} {b : Building} (h : b.isLocked = true) :
    (tStep e b).1.isLocked = true := by
  cases e with
  | frame speed dt =>
    simp only [tStep, moveTarget]
    split_ifs <;> simp [h]
  | lockEv result => simp [tStep, lockTarget]

theorem tStep_hasMissed_mono {e : TEvent} {b : Building} (h : b.hasMissed = true) :
    (tStep e b).1.hasMissed = true := by
  cases e with
  | frame speed dt =>
    simp only [tStep, moveTarget]
    split_ifs <;> simp_all
  | lockEv result => simp [tStep, lockTarget, h]

theorem tStep_no_emit_missed {e : TEvent} {b : Building} (h : b.hasMissed = true) :
    (tStep e b).2 = false := by
  cases e with
  | frame speed dt =>
    simp only [tStep, moveTarget]
    split_ifs <;> simp_all
  | lockEv result => rfl

theorem tStep_no_emit_locked {e : TEvent} {b : Building} (h : b.isLocked = true) :
    (tStep e b).2 = false := by
  cases e with
  | frame speed dt =>
    simp only [tStep, moveTarget]
    split_ifs <;> simp_all
  | lockEv result => rfl

theorem tStep_emit_sets {e : TEvent} {b : Building} (h : (tStep e b).2 = true) :
    (tStep e b).1.hasMissed = true ∧ b.hasMissed = false := by
  cases e with
  | frame speed dt =>
    simp only [tStep, moveTarget] at h ⊢
    split_ifs at h ⊢ with hc
    exact ⟨rfl, by simpa using hc.2.1⟩
  | lockEv result => simp [tStep] at h

theorem tStep_no_emit_preserves {e : TEvent} {b : Building}
    (h : (tStep e b).2 = false) : (tStep e b).1.hasMissed = b.hasMissed := by
  cases e with
  | frame speed dt =>
    simp only [tStep, moveTarget] at h ⊢
    split_ifs at h ⊢
    rfl
  | lockEv result => simp [tStep, lockTarget]

theorem runT_hasMissed_mono (evs : List TEvent) {b : Building}
    (h : b.hasMissed = true) : (runT evs b).1.hasMissed = true := by
  induction evs generalizing b with
  | nil => exact h
  | cons e evs ih => exact ih (tStep_hasMissed_mono h)

theorem runT_no_emit_missed (evs : List TEvent) {b : Building}
    (h : b.hasMissed = true) : (runT evs b).2 = 0 := by
  induction evs generalizing b with
  | nil => rfl
  | cons e evs ih =>
    simp only [runT, tStep_no_emit_missed h]
    simpa using ih (tStep_hasMissed_mono h)

theorem runT_no_emit_locked (evs : List TEvent) {b : Building}
    (h : b.isLocked = true) : (runT evs b).2 = 0 := by
  induction evs generalizing b with
  | nil => rfl
  | cons e evs ih =>
    simp only [runT, tStep_no_emit_locked h]
    simpa using ih (tStep_isLocked_mono h)

theorem runT_count (evs : List TEvent) (b : Building) :
    (runT evs b).2
      = if b.hasMissed then 0 else if (runT evs b).1.hasMissed then 1 else 0 := by
  induction evs generalizing b with
  | nil =>
    simp only [runT]
    split_ifs <;> simp_all
  | cons e evs ih =>
    by_cases hm : b.hasMissed
    · rw [if_pos hm]
      exact runT_no_emit_missed (e :: evs) hm
    · rw [if_neg hm]
      by_cases hem : (tStep e b).2
      · have hset := (tStep_emit_sets hem).1
        simp only [runT, hem, if_pos]
        rw [runT_no_emit_missed evs hset, runT_hasMissed_mono evs hset]
        simp
      · have hpres := tStep_no_emit_preserves (by simpa using hem)
        simp only [runT, hem]
        rw [ih]
        rw [hpres, if_neg hm]
        simp

/-- Claim C4: over any lifetime of frame steps (of arbitrary granularity) and
lock events, a target emits the passive-miss signal exactly once if it ever
becomes flagged from an unflagged start and never otherwise — in particular
never twice — and a locked target emits nothing; a frame in which a still
unlocked, unflagged target's depth drops below the judgment line minus the
fixed slack both flags it and emits the signal. -/
theorem C4_passive_miss_once (evs : List TEvent) (b : Building) :
    ((runT evs b).2
       = if b.hasMissed then 0 else if (runT evs b).1.hasMissed then 1 else 0)
    ∧ (runT evs b).2 ≤ 1
    ∧ (b.isLocked = true → (runT evs b).2 = 0)
    ∧ (∀ speed dt : ℚ, b.isLocked = false → b.hasMissed = false →
        b.z - speed * dt < BUILD_LINE_Z - 60 →
        (tStep (.frame speed dt) b).2 = true
        ∧ (tStep (.frame speed dt) b).1.hasMissed = true) := by
  refine ⟨runT_count evs b, ?_, fun h => runT_no_emit_locked evs h, ?_⟩
  · rw [runT_count evs b]
    split_ifs <;> norm_num
  · intro speed dt hl hm hz
    refine ⟨?_, ?_⟩ <;> simp [tStep, moveTarget, hl, hm, hz]

/-- Witness for C4: one frame that carries the fresh target across the line
emits the signal exactly once and flags it. -/
theorem C4_passive_miss_once_witness :
    (runT [TEvent.frame 500 1] wBuilding).2 = 1
    ∧ (runT [TEvent.frame 500 1] wBuilding).1.hasMissed = true
    ∧ wBuilding.isLocked = false ∧ wBuilding.hasMissed = false
    ∧ wBuilding.z - 500 * 1 < BUILD_LINE_Z - 60 := by
  have h := C4_passive_miss_once [TEvent.frame 500 1] wBuilding
  have hm : (runT [TEvent.frame 500 1] wBuilding).1.hasMissed = true := by
    norm_num [runT, tStep, moveTarget, wBuilding, BUILD_LINE_Z]
  refine ⟨?_, hm, by simp [wBuilding], by simp [wBuilding],
    by norm_num [wBuilding, BUILD_LINE_Z]⟩
  rw [h.1, hm]
  simp [wBuilding]

theorem replaceFirst_length (bs : List Building) (old nw : Building) :
    (replaceFirst bs old nw).length = bs.length := by
  induction bs with
  | nil => rfl
  | cons b rest ih =>
    unfold replaceFirst
    split_ifs <;> simp [ih]

/-- Claim C9: an input judged MISS leaves the target list completely
unchanged (so every target keeps all its fields and none is removed) while a
MISS feedback token is emitted and `(0, MISS)` is reported; only PERFECT/GOOD
replace the selected target by its locked version, whose height and color
are the result-specific constants; in every case the list length is
preserved. -/
theorem C9_miss_no_mutation (t spb : ℚ) (bs : List Building) (tgt : Building)
    (htgt : selectTarget bs = some tgt) :
    ((judge t spb).1 = .MISS →
       (handleInput .PLAYING t spb bs).1 = bs
       ∧ (handleInput .PLAYING t spb bs).2.1 = some { text := "MISS", color := "#ef4444" }
       ∧ (handleInput .PLAYING t spb bs).2.2 = some (0, .MISS))
    ∧ ((judge t spb).1 ≠ .MISS →
       (handleInput .PLAYING t spb bs).1
         = replaceFirst bs tgt (lockTarget (judge t spb).1 tgt))
    ∧ (handleInput .PLAYING t spb bs).1.length = bs.length
    ∧ (∀ res, (lockTarget res tgt).isLocked = true
        ∧ (lockTarget res tgt).quality = some res)
    ∧ (lockTarget .PERFECT tgt).height = 1
    ∧ (lockTarget .PERFECT tgt).color = "#c026d3"
    ∧ (lockTarget .GOOD tgt).height = 6 / 10
    ∧ (lockTarget .GOOD tgt).color = "#fde047" := by
  rcases eq_or_ne (judge t spb).1 .MISS with hm | hm
  · have hinp : handleInput .PLAYING t spb bs
        = (bs, some { text := "MISS", color := "#ef4444" }, some (0, .MISS)) := by
      unfold handleInput
      rw [if_neg (by simp), htgt]
      dsimp only
      rw [if_neg (not_not_intro hm)]
    refine ⟨fun _ => ⟨by rw [hinp], by rw [hinp], by rw [hinp]⟩,
      fun h => absurd hm h, by rw [hinp], ?_, ?_, ?_, ?_, ?_⟩ <;>
      simp [lockTarget]
  · have hinp : (handleInput .PLAYING t spb bs).1
        = replaceFirst bs tgt (lockTarget (judge t spb).1 tgt) := by
      unfold handleInput
      rw [if_neg (by simp), htgt]
      dsimp only
      rw [if_pos hm]
    refine ⟨fun h => absurd h hm, fun _ => hinp,
      by rw [hinp]; exact replaceFirst_length bs tgt _, ?_, ?_, ?_, ?_, ?_⟩ <;>
      simp [lockTarget]

/-- Witness for C9 at `t = 1/4`, `spb = 1` (error `0.25 ≥ 0.22` ⇒ MISS): the
single unlocked target survives untouched and `(0, MISS)` is reported. -/
theorem C9_miss_no_mutation_witness :
    selectTarget [wBuilding] = some wBuilding
    ∧ (judge (1 / 4) 1).1 = .MISS
    ∧ (handleInput .PLAYING (1 / 4) 1 [wBuilding]).1 = [wBuilding]
    ∧ (handleInput .PLAYING (1 / 4) 1 [wBuilding]).2.2 = some (0, .MISS) := by
  have hsel : selectTarget [wBuilding] = some wBuilding := by
    simp [selectTarget, wBuilding]
  have hm : (judge (1 / 4 : ℚ) 1).1 = .MISS := by
    norm_num [judge, beatErr, jsMod, ratTrunc, min_def]
  have h := C9_miss_no_mutation (1 / 4) 1 [wBuilding] wBuilding hsel
  exact ⟨hsel, hm, (h.1 hm).1, (h.1 hm).2.2⟩

theorem initEngine_ctx (s : EngineState) : (initEngine s).ctx = true := by
  unfold initEngine
  split_ifs with h
  · exact h
  · rfl

theorem resumeStep_run (s : EngineState) : (resumeStep s).ctxState = .running := by
  unfold resumeStep
  split_ifs with h
  · rfl
  · cases hcs : s.ctxState with
    | suspended => exact absurd hcs h
    | running => rfl

theorem runLoop_fields (n : ℕ) (s : EngineState) :
    (runLoop n s).ctx = s.ctx ∧ (runLoop n s).ctxState = s.ctxState
    ∧ (runLoop n s).pendingTimers = s.pendingTimers
    ∧ (runLoop n s).freshTimer = s.freshTimer
    ∧ (runLoop n s).timerID = s.timerID := by
  induction n generalizing s with
  | zero => exact ⟨rfl, rfl, rfl, rfl, rfl⟩
  | succ n ih =>
    unfold runLoop
    split_ifs
    · exact ih _
    · exact ⟨rfl, rfl, rfl, rfl, rfl⟩

theorem scheduler_fields (s : EngineState) (h : s.ctx = true) :
    (scheduler s).ctx = s.ctx ∧ (scheduler s).ctxState = s.ctxState
    ∧ (scheduler s).pendingTimers = s.pendingTimers ++ [s.freshTimer]
    ∧ (scheduler s).timerID = some s.freshTimer := by
  unfold scheduler
  rw [if_neg (by simp [h])]
  obtain ⟨h1, h2, h3, h4, h5⟩ := runLoop_fields (loopFuel s) s
  exact ⟨by simp [armTimer, h1], by simp [armTimer, h2], by simp [armTimer, h3, h4],
    by simp [armTimer, h4]⟩

theorem resumeStep_fields (s : EngineState) :
    (resumeStep s).ctx = s.ctx ∧ (resumeStep s).pendingTimers = s.pendingTimers
    ∧ (resumeStep s).freshTimer = s.freshTimer
    ∧ (resumeStep s).currentTime = s.currentTime := by
  unfold resumeStep
  split_ifs <;> exact ⟨rfl, rfl, rfl, rfl⟩

theorem initEngine_fields (s : EngineState) :
    (initEngine s).pendingTimers = s.pendingTimers
    ∧ (initEngine s).freshTimer = s.freshTimer
    ∧ (initEngine s).currentTime = s.currentTime
    ∧ (initEngine s).timerID = s.timerID := by
  unfold initEngine
  split_ifs <;> exact ⟨rfl, rfl, rfl, rfl⟩

theorem startedEngine_fields (s : EngineState) :
    (startedEngine s).ctx = true ∧ (startedEngine s).ctxState = .running
    ∧ (startedEngine s).pendingTimers = s.pendingTimers
    ∧ (startedEngine s).freshTimer = s.freshTimer
    ∧ (startedEngine s).current16thNote = 0
    ∧ (startedEngine s).stepsScheduled = ([] : List ℕ)
    ∧ (startedEngine s).beatEvents = ([] : List ℕ) := by
  obtain ⟨r1, r2, r3, _⟩ := resumeStep_fields (initEngine s)
  obtain ⟨i1, i2, _, _⟩ := initEngine_fields s
  refine ⟨?_, ?_, ?_, ?_, rfl, rfl, rfl⟩
  · show (resumeStep (initEngine s)).ctx = true
    rw [r1, initEngine_ctx]
  · show (resumeStep (initEngine s)).ctxState = .running
    exact resumeStep_run _
  · show (resumeStep (initEngine s)).pendingTimers = s.pendingTimers
    rw [r2, i1]
  · show (resumeStep (initEngine s)).freshTimer = s.freshTimer
    rw [r3, i2]

theorem start_ok_spec {env : AudioEnv} {s e : EngineState} (h : start env s = .ok e) :
    isRunning e = true
    ∧ e.pendingTimers = s.pendingTimers ++ [s.freshTimer]
    ∧ e.timerID = some s.freshTimer := by
  unfold start at h
  split_ifs at h with h1 h2
  rw [StartResult.ok.injEq] at h
  subst h
  obtain ⟨f1, f2, f3, f4, _, _, _⟩ := startedEngine_fields s
  obtain ⟨g1, g2, g3, g4⟩ := scheduler_fields (startedEngine s) f1
  refine ⟨?_, ?_, ?_⟩
  · simp [isRunning, g1, g2, f1, f2]
  · rw [g3, f3, f4]
  · rw [g4, f4]

theorem start_threw_spec {env : AudioEnv} {s e : EngineState}
    (h : start env s = .threw e) : isRunning e = false ∧ e = s := by
  unfold start at h
  split_ifs at h with h1 h2
  rw [StartResult.threw.injEq] at h
  subst h
  exact ⟨by simp [isRunning, h1.1], rfl⟩

theorem start_blocked_spec {env : AudioEnv} {s e : EngineState}
    (h : start env s = .blocked e) : isRunning e = false := by
  unfold start at h
  split_ifs at h with h1 h2
  rw [StartResult.blocked.injEq] at h
  subst h
  simp [isRunning, h2.1]

theorem startGame_cases (env : AudioEnv) (app : AppState) :
    (∃ e, start env app.engine = .ok e
        ∧ startGame env app
          = { gameState := .PLAYING, score := 0, combo := 0, health := 100, engine := e })
    ∨ (∃ e, (start env app.engine = .threw e ∨ start env app.engine = .blocked e)
        ∧ startGame env app
          = { gameState := app.gameState, score := 0, combo := 0, health := 100,
              engine := e }) := by
  rcases hs : start env app.engine with e | e | e
  · refine Or.inl ⟨e, rfl, ?_⟩
    unfold startGame
    dsimp only
    rw [hs]
  · refine Or.inr ⟨e, Or.inl rfl, ?_⟩
    unfold startGame
    dsimp only
    rw [hs]
  · refine Or.inr ⟨e, Or.inr rfl, ?_⟩
    unfold startGame
    dsimp only
    rw [hs]

/-- Claim C3: starting from a non-PLAYING screen, the controller enters
PLAYING only when the engine's `start()` completed successfully — in which
case the audio device is running — and whenever the device could not be
created or resumed (`start()` threw or never settled), the screen state is
unchanged, is not PLAYING, and `isRunning()` is `false`. -/
theorem C3_no_playing_without_audio (env : AudioEnv) (app : AppState)
    (h : app.gameState ≠ .PLAYING) :
    ((startGame env app).gameState = .PLAYING →
       ∃ e, start env app.engine = .ok e
         ∧ isRunning (startGame env app).engine = true)
    ∧ ((∀ e, start env app.engine ≠ .ok e) →
       (startGame env app).gameState = app.gameState
       ∧ (startGame env app).gameState ≠ .PLAYING
       ∧ isRunning (startGame env app).engine = false) := by
  constructor
  · intro hp
    rcases startGame_cases env app with ⟨e, hok, heq⟩ | ⟨e, hfail, heq⟩
    · refine ⟨e, hok, ?_⟩
      rw [heq]
      exact (start_ok_spec hok).1
    · rw [heq] at hp
      exact absurd hp h
  · intro hno
    rcases startGame_cases env app with ⟨e, hok, heq⟩ | ⟨e, hfail, heq⟩
    · exact absurd hok (hno e)
    · rw [heq]
      refine ⟨rfl, h, ?_⟩
      rcases hfail with hf | hf
      · exact (start_threw_spec hf).1
      · exact start_blocked_spec hf

/-- Witness for C3: with no constructible audio device from the MENU state,
`startGame` leaves the screen on MENU and the engine not running. -/
theorem C3_no_playing_without_audio_witness :
    initialApp.gameState ≠ GameState.PLAYING
    ∧ (startGame ⟨false, false⟩ initialApp).gameState = initialApp.gameState
    ∧ (startGame ⟨false, false⟩ initialApp).gameState ≠ GameState.PLAYING
    ∧ isRunning (startGame ⟨false, false⟩ initialApp).engine = false := by
  have hfail : ∀ e, start ⟨false, false⟩ initialApp.engine ≠ .ok e := by
    intro e he
    simp [start, initialApp, initialEngine] at he
  have h := (C3_no_playing_without_audio ⟨false, false⟩ initialApp
    (by simp [initialApp])).2 hfail
  exact ⟨by simp [initialApp], h.1, h.2.1, h.2.2⟩

theorem traceInv_note_step {s : EngineState} (h : traceInv s) :
    traceInv (nextNote (scheduleNote s)) := by
  obtain ⟨m, hc, hs, hb⟩ := h
  refine ⟨m + 1, ?_, ?_, ?_⟩
  · show (if s.current16thNote + 1 = 16 then 0 else s.current16thNote + 1) = (m + 1) % 16
    rw [hc]
    split_ifs <;> omega
  · show s.stepsScheduled ++ [s.current16thNote] = (List.range (m + 1)).map (fun i => i % 16)
    rw [hs, hc, List.range_succ]
    simp
  · show (if s.current16thNote % 4 = 0 then s.beatEvents ++ [s.current16thNote]
        else s.beatEvents)
      = ((List.range (m + 1)).map (fun i => i % 16)).filter (fun st => decide (st % 4 = 0))
    rw [hb, hc, List.range_succ]
    by_cases h4 : m % 16 % 4 = 0 <;> simp [h4]

theorem traceInv_runLoop (n : ℕ) {s : EngineState} (h : traceInv s) :
    traceInv (runLoop n s) := by
  induction n generalizing s with
  | zero => exact h
  | succ n ih =>
    unfold runLoop
    split_ifs
    · exact ih (traceInv_note_step h)
    · exact h

theorem traceInv_armTimer {s : EngineState} (h : traceInv s) :
    traceInv (armTimer s) := by
  obtain ⟨m, hc, hs, hb⟩ := h
  exact ⟨m, hc, hs, hb⟩

theorem traceInv_scheduler {s : EngineState} (h : traceInv s) :
    traceInv (scheduler s) := by
  unfold scheduler
  split_ifs
  · exact h
  · exact traceInv_armTimer (traceInv_runLoop _ h)

theorem traceInv_tick (dt : ℚ) {s : EngineState} (h : traceInv s) :
    traceInv (tick dt s) := by
  unfold tick
  cases s.timerID with
  | none => exact h
  | some t =>
    refine traceInv_scheduler ?_
    obtain ⟨m, hc, hs, hb⟩ := h
    exact ⟨m, hc, hs, hb⟩

theorem traceInv_runTicks (dts : List ℚ) {s : EngineState} (h : traceInv s) :
    traceInv (runTicks dts s) := by
  induction dts generalizing s with
  | nil => exact h
  | cons dt dts ih => exact ih (traceInv_tick dt h)

theorem start_ok_traceInv {env : AudioEnv} {s e : EngineState}
    (h : start env s = .ok e) : traceInv e := by
  unfold start at h
  split_ifs at h with h1 h2
  rw [StartResult.ok.injEq] at h
  subst h
  obtain ⟨_, _, _, _, f5, f6, f7⟩ := startedEngine_fields s
  exact traceInv_scheduler ⟨0, by rw [f5], by rw [f6]; rfl, by rw [f7]; rfl⟩

/-- Claim C2 (amended): a `start()` issued on an engine with a context is NOT
idempotent with respect to the scheduler loop — it never cancels the already
pending look-ahead timeout and always arms a fresh one (so a re-entrant start
leaves two live timer chains, of which `stop()` can cancel only the most
recently armed), and it resets the step counter; what does hold is that
within one continuous run — the events produced from one `start` through any
sequence of timer callbacks — the scheduled steps are the consecutive
sequence `0,1,2,…` reduced mod 16 (the counter cycles 0..15 one step at a
time, never skipping or repeating a step) and the beat callback fires exactly
once for each scheduled step with `step % 4 == 0`, in order. -/
theorem C2_start_not_idempotent_run_trace (env : AudioEnv) (s e : EngineState)
    (dts : List ℚ) (hok : start env s = .ok e) :
    e.pendingTimers = s.pendingTimers ++ [s.freshTimer]
    ∧ e.pendingTimers.length = s.pendingTimers.length + 1
    ∧ (∃ m : ℕ,
        (runTicks dts e).stepsScheduled = (List.range m).map (fun i => i % 16)
        ∧ (runTicks dts e).beatEvents
            = ((List.range m).map (fun i => i % 16)).filter
                (fun st => decide (st % 4 = 0))
        ∧ (runTicks dts e).current16thNote = m % 16) := by
  obtain ⟨_, hp, _⟩ := start_ok_spec hok
  obtain ⟨m, hc, hs, hb⟩ := traceInv_runTicks dts (start_ok_traceInv hok)
  exact ⟨hp, by rw [hp]; simp, m, hs, hb, hc⟩

/-- Counterexample to C2 as stated: on a running engine with one pending
look-ahead timer, a second `start()` returns normally and leaves two pending
timers (a duplicated scheduler chain) and a reset step counter, and the
following `stop()` cancels only the newer one, leaving the older chain
pending. -/
theorem C2_counterexample :
    isRunning wEngine = true
    ∧ wEngine.pendingTimers.length = 1
    ∧ start ⟨true, true⟩ wEngine = .ok (startState ⟨true, true⟩ wEngine)
    ∧ (startState ⟨true, true⟩ wEngine).pendingTimers = [0, 1]
    ∧ (startState ⟨true, true⟩ wEngine).current16thNote ≠ wEngine.current16thNote
    ∧ (stop (startState ⟨true, true⟩ wEngine)).pendingTimers = [0] := by
  have hstart : start ⟨true, true⟩ wEngine
      = .ok (scheduler (startedEngine wEngine)) := by
    rw [start, if_neg (by simp [wEngine]), if_neg (by simp [initEngine, wEngine])]
  have hsched : scheduler (startedEngine wEngine)
      = armTimer (startedEngine wEngine) := by
    rw [scheduler,
      if_neg (by simp [startedEngine, resumeStep, initEngine, wEngine])]
    have hfuel : loopFuel (startedEngine wEngine) = 0 := by
      simp [loopFuel, startedEngine, resumeStep, initEngine, wEngine,
        scheduleAheadTime, sixteenthStep, bpmConst]
    rw [hfuel]
    rfl
  have hstate : startState ⟨true, true⟩ wEngine
      = armTimer (startedEngine wEngine) := by
    rw [startState, hstart, hsched]
  refine ⟨by simp [isRunning, wEngine], by simp [wEngine], ?_, ?_, ?_, ?_⟩
  · rw [hstart, hstate, hsched]
  · rw [hstate]
    simp [armTimer, startedEngine, resumeStep, initEngine, wEngine]
  · rw [hstate]
    simp [armTimer, startedEngine, resumeStep, initEngine, wEngine]
  · rw [hstate]
    simp [stop, armTimer, startedEngine, resumeStep, initEngine, wEngine]

/-- Witness for the amended C2 at the concrete running engine `wEngine` and
one subsequent timer callback. -/
theorem C2_start_not_idempotent_run_trace_witness :
    start ⟨true, true⟩ wEngine = .ok (startState ⟨true, true⟩ wEngine)
    ∧ ((startState ⟨true, true⟩ wEngine).pendingTimers
          = wEngine.pendingTimers ++ [wEngine.freshTimer]
       ∧ (startState ⟨true, true⟩ wEngine).pendingTimers.length
          = wEngine.pendingTimers.length + 1
       ∧ (∃ m : ℕ,
          (runTicks [1 / 10] (startState ⟨true, true⟩ wEngine)).stepsScheduled
            = (List.range m).map (fun i => i % 16)
          ∧ (runTicks [1 / 10] (startState ⟨true, true⟩ wEngine)).beatEvents
            = ((List.range m).map (fun i => i % 16)).filter
                (fun st => decide (st % 4 = 0))
          ∧ (runTicks [1 / 10] (startState ⟨true, true⟩ wEngine)).current16thNote
            = m % 16)) := by
  have hok : start ⟨true, true⟩ wEngine = .ok (startState ⟨true, true⟩ wEngine) := by
    rw [start, if_neg (by simp [wEngine]), if_neg (by simp [initEngine, wEngine]),
      startState, start, if_neg (by simp [wEngine]),
      if_neg (by simp [initEngine, wEngine])]
  exact ⟨hok,
    C2_start_not_idempotent_run_trace ⟨true, true⟩ wEngine
      (startState ⟨true, true⟩ wEngine) [1 / 10] hok⟩

theorem moveTarget_z (speed dt : ℚ) (b : Building) :
    (moveTarget speed dt b).1.z = b.z - speed * dt := by
  simp only [moveTarget]
  split_ifs <;> rfl

theorem moveTarget_quality (speed dt : ℚ) (b : Building) :
    (moveTarget speed dt b).1.quality = b.quality := by
  simp only [moveTarget]
  split_ifs <;> rfl

theorem pairwise_lastZ_min (l : List Building)
    (hp : List.Pairwise (fun a b => b.z ≤ a.z) l) :
    ∀ b ∈ l, lastZ l ≤ b.z := by
  induction l with
  | nil =>
    intro b hb
    simp at hb
  | cons a l ih =>
    intro b hb
    cases l with
    | nil =>
      simp at hb
      subst hb
      simp [lastZ]
    | cons c l2 =>
      have hlz : lastZ (a :: c :: l2) = lastZ (c :: l2) := by
        simp [lastZ, List.getLast?_cons_cons]
      rcases List.mem_cons.mp hb with rfl | hb2
      · have h1 := ih hp.of_cons c (by simp)
        have h2 : c.z ≤ b.z := (List.pairwise_cons.mp hp).1 c (by simp)
        rw [hlz]
        exact le_trans h1 h2
      · rw [hlz]
        exact ih hp.of_cons b hb2

theorem framePool_pairwise (speed dt : ℚ) (bs : List Building)
    (hp : List.Pairwise (fun a b => b.z ≤ a.z) bs) :
    List.Pairwise (fun a b : Building => b.z ≤ a.z) (framePool speed dt bs) := by
  unfold framePool keepAlive moveAndFlag
  refine List.Pairwise.filter _ ?_
  rw [List.pairwise_map]
  refine hp.imp ?_
  intro a b hab
  rw [moveTarget_z, moveTarget_z]
  exact sub_le_sub_right hab _

/-- Claim C8 (amended): on a frame with fewer than `8` targets left after
movement and retirement, exactly one target is spawned; its depth is `400`
units behind the depth of the LAST element of the target array (with the
fresh-pool fallback `1500`), and since the draw step keeps that array sorted
by descending depth, the last element is the shallowest (nearest) in-flight
target — not the most recently spawned one; the spawn is unlocked with
`quality` null and its lane offset is one of the five values
`(lane − 2) · 250`, `lane` drawn uniformly from `0..4`. -/
theorem C8_spawn_amended (speed dt id : ℚ) (lane : Fin 5) (bs : List Building)
    (h : (framePool speed dt bs).length < 8) :
    (renderStep speed dt id lane bs).Perm
        (framePool speed dt bs
          ++ [newBuilding id (lastZ (framePool speed dt bs)) lane])
    ∧ (newBuilding id (lastZ (framePool speed dt bs)) lane).z
        = lastZ (framePool speed dt bs) + 400
    ∧ (newBuilding id (lastZ (framePool speed dt bs)) lane).x
        ∈ [(-500 : ℚ), -250, 0, 250, 500]
    ∧ (newBuilding id (lastZ (framePool speed dt bs)) lane).isLocked = false
    ∧ (newBuilding id (lastZ (framePool speed dt bs)) lane).quality = none
    ∧ (List.Pairwise (fun a b => b.z ≤ a.z) bs →
        ∀ c ∈ framePool speed dt bs, lastZ (framePool speed dt bs) ≤ c.z) := by
  refine ⟨?_, rfl, ?_, rfl, rfl, ?_⟩
  · unfold renderStep spawnPhase sortByZDesc
    rw [if_pos h]
    exact List.perm_insertionSort _ _
  · fin_cases lane <;> norm_num [newBuilding]
  · intro hp c hc
    exact pairwise_lastZ_min _ (framePool_pairwise speed dt bs hp) c hc

theorem cexFrame1_eval :
    cexFrame1 =
      [{ id := 1, btype := "skyscraper", height := 2 / 10, color := "#06b6d4",
         z := 1900, x := 0, isLocked := false, quality := none, hasMissed := false }] := by
  norm_num [cexFrame1, renderStep, framePool, moveAndFlag, keepAlive, spawnPhase,
    lastZ, sortByZDesc, newBuilding, moveTarget, BUILD_LINE_Z,
    List.insertionSort, List.orderedInsert]

theorem cexFrame2_eval :
    cexFrame2 =
      [{ id := 2, btype := "skyscraper", height := 2 / 10, color := "#06b6d4",
         z := 2250, x := 0, isLocked := false, quality := none, hasMissed := false },
       { id := 1, btype := "skyscraper", height := 2 / 10, color := "#06b6d4",
         z := 1850, x := 0, isLocked := false, quality := none, hasMissed := false }] := by
  rw [cexFrame2, cexFrame1_eval]
  norm_num [renderStep, framePool, moveAndFlag, keepAlive, spawnPhase,
    lastZ, sortByZDesc, newBuilding, moveTarget, BUILD_LINE_Z,
    List.insertionSort, List.orderedInsert]

theorem cexFrame3_eval :
    cexFrame3 =
      [{ id := 2, btype := "skyscraper", height := 2 / 10, color := "#06b6d4",
         z := 1650, x := 0, isLocked := false, quality := none, hasMissed := false },
       { id := 3, btype := "skyscraper", height := 2 / 10, color := "#06b6d4",
         z := 1650, x := 0, isLocked := false, quality := none, hasMissed := false },
       { id := 1, btype := "skyscraper", height := 2 / 10, color := "#06b6d4",
         z := 1250, x := 0, isLocked := false, quality := none, hasMissed := false }] := by
  rw [cexFrame3, cexFrame2_eval]
  norm_num [renderStep, framePool, moveAndFlag, keepAlive, spawnPhase,
    lastZ, sortByZDesc, newBuilding, moveTarget, BUILD_LINE_Z,
    List.insertionSort, List.orderedInsert]

theorem cexFramePool_eval :
    framePool 500 (6 / 5) cexFrame2 =
      [{ id := 2, btype := "skyscraper", height := 2 / 10, color := "#06b6d4",
         z := 1650, x := 0, isLocked := false, quality := none, hasMissed := false },
       { id := 1, btype := "skyscraper", height := 2 / 10, color := "#06b6d4",
         z := 1250, x := 0, isLocked := false, quality := none, hasMissed := false }] := by
  rw [cexFrame2_eval]
  norm_num [framePool, moveAndFlag, keepAlive, moveTarget, BUILD_LINE_Z]

/-- Counterexample to C8 as stated: starting from the empty pool, frame 1
spawns target 1 (depth 1900), frame 2 spawns target 2 at depth 2250 (the
most recent spawn), and frame 3 — a frame with fewer than 8 targets in
flight — spawns target 3 at depth 1650: the depth of the array's LAST
element (target 1, at 1250 after moving) plus 400, which equals the moved
depth of target 2 (1650) rather than lying 400 units behind it (2050). -/
theorem C8_counterexample :
    cexFrame2.length < 8
    ∧ cexFrame3 =
        [{ id := 2, btype := "skyscraper", height := 2 / 10, color := "#06b6d4",
           z := 1650, x := 0, isLocked := false, quality := none, hasMissed := false },
         { id := 3, btype := "skyscraper", height := 2 / 10, color := "#06b6d4",
           z := 1650, x := 0, isLocked := false, quality := none, hasMissed := false },
         { id := 1, btype := "skyscraper", height := 2 / 10, color := "#06b6d4",
           z := 1250, x := 0, isLocked := false, quality := none, hasMissed := false }]
    ∧ (1650 : ℚ) ≠ 1650 + 400 :=
  ⟨by rw [cexFrame2_eval]; norm_num, cexFrame3_eval, by norm_num⟩

/-- Witness for the amended C8 at frame 3 of the concrete scenario. -/
theorem C8_spawn_amended_witness :
    (framePool 500 (6 / 5) cexFrame2).length < 8
    ∧ ((renderStep 500 (6 / 5) 3 ⟨2, by norm_num⟩ cexFrame2).Perm
        (framePool 500 (6 / 5) cexFrame2
          ++ [newBuilding 3 (lastZ (framePool 500 (6 / 5) cexFrame2)) ⟨2, by norm_num⟩])
      ∧ (newBuilding 3 (lastZ (framePool 500 (6 / 5) cexFrame2)) ⟨2, by norm_num⟩).z
          = lastZ (framePool 500 (6 / 5) cexFrame2) + 400
      ∧ (newBuilding 3 (lastZ (framePool 500 (6 / 5) cexFrame2)) ⟨2, by norm_num⟩).x
          ∈ [(-500 : ℚ), -250, 0, 250, 500]
      ∧ (newBuilding 3 (lastZ (framePool 500 (6 / 5) cexFrame2)) ⟨2, by norm_num⟩).isLocked
          = false
      ∧ (newBuilding 3 (lastZ (framePool 500 (6 / 5) cexFrame2)) ⟨2, by norm_num⟩).quality
          = none
      ∧ (List.Pairwise (fun a b => b.z ≤ a.z) cexFrame2 →
          ∀ c ∈ framePool 500 (6 / 5) cexFrame2,
            lastZ (framePool 500 (6 / 5) cexFrame2) ≤ c.z)) := by
  have hlen : (framePool 500 (6 / 5) cexFrame2).length < 8 := by
    rw [cexFramePool_eval]
    norm_num
  exact ⟨hlen, C8_spawn_amended 500 (6 / 5) 3 ⟨2, by norm_num⟩ cexFrame2 hlen⟩

theorem mem_replaceFirst {bs : List Building} {old nw b : Building}
    (h : b ∈ replaceFirst bs old nw) : b ∈ bs ∨ b = nw := by
  induction bs with
  | nil => simp [replaceFirst] at h
  | cons c rest ih =>
    unfold replaceFirst at h
    split_ifs at h
    · rcases List.mem_cons.mp h with rfl | hr
      · exact Or.inr rfl
      · exact Or.inl (List.mem_cons_of_mem _ hr)
    · rcases List.mem_cons.mp h with rfl | hr
      · exact Or.inl (List.mem_cons_self _ _)
      · rcases ih hr with h1 | h1
        · exact Or.inl (List.mem_cons_of_mem _ h1)
        · exact Or.inr h1

theorem quality_handleInput {t spb : ℚ} {bs : List Building}
    (hq : ∀ c ∈ bs,
      c.quality = none ∨ c.quality = some .PERFECT ∨ c.quality = some .GOOD) :
    ∀ b ∈ (handleInput .PLAYING t spb bs).1,
      b.quality = none ∨ b.quality = some .PERFECT ∨ b.quality = some .GOOD := by
  intro b hb
  unfold handleInput at hb
  rw [if_neg (by simp)] at hb
  cases hsel : selectTarget bs with
  | none =>
    rw [hsel] at hb
    exact hq b hb
  | some tgt =>
    rw [hsel] at hb
    dsimp only at hb
    rcases judge_cases t spb with hj | hj | hj
    · rw [hj, if_pos (by simp)] at hb
      dsimp only at hb
      rcases mem_replaceFirst hb with h1 | h1
      · exact hq b h1
      · subst h1
        right
        left
        simp [lockTarget]
    · rw [hj, if_pos (by simp)] at hb
      dsimp only at hb
      rcases mem_replaceFirst hb with h1 | h1
      · exact hq b h1
      · subst h1
        right
        right
        simp [lockTarget]
    · rw [hj, if_neg (by simp)] at hb
      exact hq b hb

theorem quality_renderStep {speed dt id : ℚ} {lane : Fin 5} {bs : List Building}
    (hq : ∀ c ∈ bs,
      c.quality = none ∨ c.quality = some .PERFECT ∨ c.quality = some .GOOD) :
    ∀ b ∈ renderStep speed dt id lane bs,
      b.quality = none ∨ b.quality = some .PERFECT ∨ b.quality = some .GOOD := by
  intro b hb
  have hb1 : b ∈ spawnPhase id lane (framePool speed dt bs) :=
    (List.perm_insertionSort _ _).subset hb
  have hpool : ∀ c ∈ framePool speed dt bs,
      c.quality = none ∨ c.quality = some .PERFECT ∨ c.quality = some .GOOD := by
    intro c hc
    unfold framePool keepAlive at hc
    obtain ⟨a, ha, rfl⟩ := List.mem_map.mp (List.mem_of_mem_filter hc)
    rw [moveTarget_quality]
    exact hq a ha
  unfold spawnPhase at hb1
  split_ifs at hb1
  · rcases List.mem_append.mp hb1 with h1 | h1
    · exact hpool b h1
    · rw [List.mem_singleton.mp h1]
      left
      rfl
  · exact hpool b hb1

/-- Claim C10: over every state reachable from the empty target list by any
mix of PLAYING-state render frames and judged inputs, every target's
`quality` is `null`, PERFECT or GOOD — the value MISS, though allowed by the
target's type, is never stored (active misses do not touch the target,
passive misses only set `hasMissed`). -/
theorem C10_quality_never_miss (evs : List SysEvent) (b : Building)
    (hb : b ∈ runSys evs) :
    b.quality = none ∨ b.quality = some .PERFECT ∨ b.quality = some .GOOD := by
  suffices h : ∀ bs : List Building,
      (∀ c ∈ bs, c.quality = none ∨ c.quality = some .PERFECT ∨ c.quality = some .GOOD) →
      ∀ c ∈ evs.foldl (fun bs e => sysStep e bs) bs,
        c.quality = none ∨ c.quality = some .PERFECT ∨ c.quality = some .GOOD by
    exact h [] (by simp) b hb
  clear hb b
  induction evs with
  | nil =>
    intro bs hq c hc
    exact hq c hc
  | cons e evs ih =>
    intro bs hq c hc
    have hq' : ∀ c ∈ sysStep e bs,
        c.quality = none ∨ c.quality = some .PERFECT ∨ c.quality = some .GOOD := by
      cases e with
      | input t spb => exact quality_handleInput hq
      | frame speed dt id lane => exact quality_renderStep hq
    exact ih (sysStep e bs) hq' c hc

/-- Witness for C10: the target spawned on the first frame has `quality`
null. -/
theorem C10_quality_never_miss_witness :
    (newBuilding 7 1500 ⟨2, by norm_num⟩).quality = none
    ∨ (newBuilding 7 1500 ⟨2, by norm_num⟩).quality = some .PERFECT
    ∨ (newBuilding 7 1500 ⟨2, by norm_num⟩).quality = some .GOOD :=
  C10_quality_never_miss [SysEvent.frame 0 0 7 ⟨2, by norm_num⟩] _
    (by norm_num [runSys, sysStep, renderStep, framePool, moveAndFlag, keepAlive,
      spawnPhase, lastZ, sortByZDesc, List.insertionSort, List.orderedInsert])

end Neon
